import Mathlib

/-!
A verification development for the mobile-model backport pipeline declared in
`torch/csrc/jit/mobile/backport.h`. The header declares the five public
`_backport_for_mobile` overloads (stream/path sources and destinations plus the
canonical read-adapter/stream-writer form); the pipeline behind them — version
detection, downgrade-step chaining, repackaging — is specified in the design
document, and is modelled here from that specification.
-/

namespace Backport

/-- Modelled from the spec: the error taxonomy of §7 (the implementation behind
`backport.h` is not part of the given sources). -/
inductive BackportError where
  | UnreadableArchive
  | UnsupportedTarget
  | NoDowngradePath
  | StepFailure
  | SerializationError
deriving DecidableEq, Repr

/-- A named byte-entry of a package container. Bytes are modelled as natural
numbers. -/
structure Entry where
  name : String
  bytes : List Nat
deriving DecidableEq, Repr

/-- Modelled from the spec: a Package/Archive is a named-entry container,
an ordered list of named byte-entries. -/
abbrev Package := List Entry

/-- The name of the version-marker entry inside a package. -/
def versionEntryName : String := "bytecode/version"

/-- Classification of entries: an entry is a bytecode record (or the bytecode
version marker) exactly when its name lies under the bytecode prefix. -/
def isBytecodeEntry (e : Entry) : Bool :=
  List.isPrefixOf "bytecode/".data e.name.data

/-- Look up the first entry of a package with the given name. -/
def findEntry (p : Package) (n : String) : Option Entry :=
  p.find? (fun e => e.name == n)

/-- Modelled from the spec (§4.1, Version Detector; the detector's code is not
in the given sources): return the format version declared inside the package;
fail with `UnreadableArchive` when the version record is absent or malformed. -/
def detectVersion (p : Package) : Except BackportError Nat :=
  match findEntry p versionEntryName with
  | none => .error .UnreadableArchive
  | some e =>
    match e.bytes with
    | [v] => .ok v
    | _ => .error .UnreadableArchive

/-- Modelled from the spec: opening a source by name; a missing file is an
unopenable container, reported as `UnreadableArchive`. -/
def detectVersionFromFile (files : String → Option Package) (n : String) :
    Except BackportError Nat :=
  match files n with
  | none => .error .UnreadableArchive
  | some p => detectVersion p

/-- Modelled from the spec: the in-memory bytecode model, abstracted to the
flat sequence of record bytes (the per-version record structure is an external
collaborator). -/
abbrev BytecodeModel := List Nat

/-- Modelled from the spec (§3): a downgrade step transforms a version-`v`
bytecode model into a version-`v-1` model, or fails (`StepFailure`). -/
def DowngradeStep := BytecodeModel → Option BytecodeModel

/-- Modelled from the spec (§4.2): the registry maps each version to the step
that downgrades from it, `none` when no step is registered. -/
abbrev Registry := Nat → Option DowngradeStep

/-- The bytecode record entries of a package: bytecode-classified entries other
than the version marker. -/
def bytecodeRecords (p : Package) : List Entry :=
  p.filter (fun e => isBytecodeEntry e && e.name != versionEntryName)

/-- Modelled from the spec (§4.3 step 3): deserialize the bytecode records of a
package into the bytecode model, in entry order. -/
def parseBytecode (p : Package) : BytecodeModel :=
  (bytecodeRecords p).foldr (fun e acc => e.bytes ++ acc) []

/-- Modelled from the spec (§4.4): the entries the Repackager writes for the
transformed bytecode — a version marker equal to the target version, then the
re-encoded records. -/
def serializeBytecode (target : Nat) (m : BytecodeModel) : List Entry :=
  [⟨versionEntryName, [target]⟩, ⟨"bytecode/records", m⟩]

/-- The entries of a package that are not classified as bytecode records. -/
def nonBytecodeEntries (p : Package) : List Entry :=
  p.filter (fun e => !(isBytecodeEntry e))

/-- Modelled from the spec (§4.4, Repackager): write the transformed bytecode
records at the target version and copy every other original entry verbatim, in
its original order. -/
def repackage (target : Nat) (m : BytecodeModel) (src : Package) : Package :=
  serializeBytecode target m ++ nonBytecodeEntries src

/-- Modelled from the spec (§4.3 step 4): iterate `v` from the source version
down to `target + 1`, looking up the step for `v` and replacing the model with
the step's output; a missing step is `NoDowngradePath`, a rejecting step is
`StepFailure`. -/
def downgradeChain (reg : Registry) (target : Nat) :
    Nat → BytecodeModel → Except BackportError BytecodeModel
  | 0, m => .ok m
  | v + 1, m =>
    if v + 1 ≤ target then .ok m
    else
      match reg (v + 1) with
      | none => .error .NoDowngradePath
      | some step =>
        match step m with
        | none => .error .StepFailure
        | some m₁ => downgradeChain reg target v m₁

/-- The descending list of versions `[v, v-1, …, target+1]` whose steps the
orchestrator applies. -/
def versionsToApply (target : Nat) : Nat → List Nat
  | 0 => []
  | v + 1 => if v + 1 ≤ target then [] else (v + 1) :: versionsToApply target v

/-- One iteration of the orchestrator's loop: look up the step for version `v`
and replace the accumulated model with its output. -/
def stepAt (reg : Registry) (acc : Except BackportError BytecodeModel) (v : Nat) :
    Except BackportError BytecodeModel :=
  match acc with
  | .error e => .error e
  | .ok m =>
    match reg v with
    | none => .error .NoDowngradePath
    | some step =>
      match step m with
      | none => .error .StepFailure
      | some m₁ => .ok m₁

/-- Modelled from the spec (§4.3, Backport Orchestrator; the orchestrator's
code is not in the given sources): detect the source version, validate the
target, run the downgrade chain and repackage. `minV` is the minimum supported
version. -/
def backport (reg : Registry) (minV : Nat) (src : Package) (target : Nat) :
    Except BackportError Package :=
  match detectVersion src with
  | .error e => .error e
  | .ok sourceVersion =>
    if sourceVersion < target then .error .UnsupportedTarget
    else if target < minV then .error .UnsupportedTarget
    else
      match downgradeChain reg target sourceVersion (parseBytecode src) with
      | .error e => .error e
      | .ok m₁ => .ok (repackage target m₁ src)

/-- Modelled from the spec (§6): the canonical entry point taking an opened
source handle and a writer handle; the value is the destination package handed
to the writer, or the failure. -/
def _backport_for_mobile (reg : Registry) (minV : Nat) (src : Package)
    (target : Nat) : Except BackportError Package :=
  backport reg minV src target

/-- Whether a pipeline result is a success. -/
def succeeded (r : Except BackportError Package) : Bool :=
  match r with
  | .ok _ => true
  | .error _ => false

/-- The process-wide state visible to the pipeline: the immutable step
registry, the minimum supported version, and the named files (caller-visible
paths). -/
structure SystemState where
  registry : Registry
  minVersion : Nat
  files : String → Option Package

/-- Modelled from the spec: sealing the destination for a named-path target —
the file appears at the path only on success; on failure the state is left
untouched. -/
def writeDest (s : SystemState) (out : String) (r : Except BackportError Package) :
    SystemState × Bool :=
  match r with
  | .ok d =>
    (SystemState.mk s.registry s.minVersion
      (fun n => if n = out then some d else s.files n), true)
  | .error _ => (s, false)

/-- Modelled from the spec (§6): the overload taking an opened source stream
and a destination path. -/
def backportStreamToPath (s : SystemState) (src : Package) (out : String)
    (target : Nat) : SystemState × Bool :=
  writeDest s out (_backport_for_mobile s.registry s.minVersion src target)

/-- Modelled from the spec (§6): the overload taking a source path and a
destination stream; the stream's contents are the `Except` value. -/
def backportPathToStream (s : SystemState) (inp : String) (target : Nat) :
    Except BackportError Package :=
  match s.files inp with
  | none => .error .UnreadableArchive
  | some src => _backport_for_mobile s.registry s.minVersion src target

/-- Modelled from the spec (§6): the overload taking a source path and a
destination path — open the source, run the canonical entry point, seal the
destination on success. -/
def runBackportAt (s : SystemState) (inp out : String) (target : Nat) :
    SystemState × Bool :=
  match s.files inp with
  | none => (s, false)
  | some src => backportStreamToPath s src out target

/-- Modelled from the spec (§6): the overload taking a source stream and a
destination stream. -/
def backportStreamToStream (reg : Registry) (minV : Nat) (src : Package)
    (target : Nat) : Except BackportError Package :=
  _backport_for_mobile reg minV src target

/-! ### Concrete fixtures used by the witness theorems -/

/-- A concrete source package at bytecode version 6 with one bytecode record
and two auxiliary entries. -/
def exPkg : Package :=
  [⟨"bytecode/version", [6]⟩, ⟨"bytecode/records", [7, 8]⟩,
   ⟨"data/weight0", [9, 10]⟩, ⟨"extra/meta", [11]⟩]

/-- A concrete registry with steps registered for versions 6 and 5 only
(6→5 prepends a marker byte, 5→4 appends one). -/
def exReg : Registry := fun v =>
  if v = 6 then some (fun m => some (0 :: m))
  else if v = 5 then some (fun m => some (m ++ [1]))
  else none

/-- A concrete system state: the example registry, minimum version 2, and a
file system holding the example package under `"in"`. -/
def exState : SystemState :=
  SystemState.mk exReg 2 (fun n => if n = "in" then some exPkg else none)

/-! ### Helper lemmas -/

theorem downgradeChain_of_le (reg : Registry) (m : BytecodeModel) {target v : Nat}
    (h : v ≤ target) : downgradeChain reg target v m = .ok m := by
  cases v with
  | zero => rfl
  | succ v => simp [downgradeChain, h]

theorem isBytecodeEntry_versionMarker (bs : List Nat) :
    isBytecodeEntry ⟨versionEntryName, bs⟩ = true := rfl

theorem isBytecodeEntry_recordsEntry (bs : List Nat) :
    isBytecodeEntry ⟨"bytecode/records", bs⟩ = true := rfl

theorem nonBytecodeEntries_repackage (t : Nat) (m : BytecodeModel) (src : Package) :
    nonBytecodeEntries (repackage t m src) = nonBytecodeEntries src := by
  unfold repackage nonBytecodeEntries serializeBytecode
  rw [List.filter_append]
  have h1 : List.filter (fun e => !(isBytecodeEntry e))
      [(⟨versionEntryName, [t]⟩ : Entry), ⟨"bytecode/records", m⟩] = [] := rfl
  have h2 : List.filter (fun e => !(isBytecodeEntry e))
      (List.filter (fun e => !(isBytecodeEntry e)) src) =
      List.filter (fun e => !(isBytecodeEntry e)) src := by
    apply List.filter_eq_self.mpr
    intro a ha
    exact (List.mem_filter.mp ha).2
  rw [h1, h2, List.nil_append]

theorem detectVersion_repackage (t : Nat) (m : BytecodeModel) (src : Package) :
    detectVersion (repackage t m src) = .ok t := rfl

theorem bytecodeRecords_repackage (t : Nat) (m : BytecodeModel) (src : Package) :
    bytecodeRecords (repackage t m src) = [⟨"bytecode/records", m⟩] := by
  unfold repackage bytecodeRecords serializeBytecode nonBytecodeEntries
  rw [List.filter_append]
  have h1 : List.filter (fun e => isBytecodeEntry e && e.name != versionEntryName)
      [(⟨versionEntryName, [t]⟩ : Entry), ⟨"bytecode/records", m⟩] =
      [⟨"bytecode/records", m⟩] := rfl
  have h2 : List.filter (fun e => isBytecodeEntry e && e.name != versionEntryName)
      (List.filter (fun e => !(isBytecodeEntry e)) src) = [] := by
    apply List.filter_eq_nil_iff.mpr
    intro a ha
    have hbc := List.of_mem_filter ha
    cases hb : isBytecodeEntry a with
    | false => simp [hb]
    | true => rw [hb] at hbc; simp at hbc
  rw [h1, h2, List.append_nil]

theorem parseBytecode_repackage (t : Nat) (m : BytecodeModel) (src : Package) :
    parseBytecode (repackage t m src) = m := by
  unfold parseBytecode
  rw [bytecodeRecords_repackage]
  simp

theorem backport_ok_elim {reg : Registry} {minV : Nat} {src : Package}
    {target : Nat} {d : Package} (h : backport reg minV src target = .ok d) :
    ∃ sv m₁, detectVersion src = .ok sv ∧ target ≤ sv ∧ minV ≤ target ∧
      downgradeChain reg target sv (parseBytecode src) = .ok m₁ ∧
      d = repackage target m₁ src := by
  unfold backport at h
  cases hdet : detectVersion src with
  | error e => rw [hdet] at h; cases h
  | ok sv =>
    rw [hdet] at h
    by_cases h1 : sv < target
    · simp [h1] at h
    · by_cases h2 : target < minV
      · simp [h1, h2] at h
      · simp only [if_neg h1, if_neg h2] at h
        cases hc : downgradeChain reg target sv (parseBytecode src) with
        | error e => rw [hc] at h; cases h
        | ok m₁ =>
          rw [hc] at h
          cases h
          exact ⟨sv, m₁, rfl, Nat.le_of_not_lt h1, Nat.le_of_not_lt h2, hc, rfl⟩

theorem foldl_stepAt_error (reg : Registry) (e : BackportError) (l : List Nat) :
    l.foldl (stepAt reg) (.error e) = .error e := by
  induction l with
  | nil => rfl
  | cons v l ih => rw [List.foldl_cons]; exact ih

theorem downgradeChain_eq_foldl (reg : Registry) (target : Nat) :
    ∀ (v : Nat) (m : BytecodeModel),
      downgradeChain reg target v m = (versionsToApply target v).foldl (stepAt reg) (.ok m)
  | 0, m => rfl
  | v + 1, m => by
    by_cases h : v + 1 ≤ target
    · simp [downgradeChain, versionsToApply, h]
    · simp only [downgradeChain, versionsToApply, if_neg h, List.foldl_cons]
      cases hr : reg (v + 1) with
      | none => simp [stepAt, hr, foldl_stepAt_error]
      | some st =>
        cases hs : st m with
        | none => simp [stepAt, hr, hs, foldl_stepAt_error]
        | some m₁ =>
          simp only [stepAt, hr, hs]
          exact downgradeChain_eq_foldl reg target v m₁

theorem versionsToApply_eq_range (target : Nat) :
    ∀ v, versionsToApply target v = (List.range' (target + 1) (v - target)).reverse
  | 0 => by simp [versionsToApply]
  | v + 1 => by
    by_cases h : v + 1 ≤ target
    · simp [versionsToApply, h, Nat.sub_eq_zero_of_le h]
    · have hk : (v + 1) - target = (v - target) + 1 := by omega
      have hv : target + 1 + 1 * (v - target) = v + 1 := by omega
      rw [versionsToApply, if_neg h, hk, List.range'_concat, List.reverse_append,
        List.reverse_singleton, hv, List.singleton_append,
        versionsToApply_eq_range target v]

theorem downgradeChain_gap (reg : Registry) (target : Nat) :
    ∀ (v : Nat) (m : BytecodeModel) (w : Nat), target < w → w ≤ v → reg w = none →
      (∀ u, w < u → u ≤ v → ∃ st, reg u = some st ∧ ∀ mm, (st mm).isSome = true) →
      downgradeChain reg target v m = .error .NoDowngradePath
  | 0, _, w, hw1, hw2, _, _ => absurd (Nat.lt_of_lt_of_le hw1 hw2) (Nat.not_lt_zero target)
  | v + 1, m, w, hw1, hw2, hnone, habove => by
    have hnotle : ¬ (v + 1 ≤ target) := by omega
    simp only [downgradeChain, if_neg hnotle]
    rcases Nat.lt_or_ge w (v + 1) with hlt | hge
    · obtain ⟨st, hst, htot⟩ := habove (v + 1) hlt (Nat.le_refl _)
      rw [hst]
      show (match st m with
          | none => Except.error BackportError.StepFailure
          | some m₁ => downgradeChain reg target v m₁) =
        Except.error BackportError.NoDowngradePath
      cases hs : st m with
      | none => have h₂ := htot m; rw [hs] at h₂; simp at h₂
      | some m₁ =>
        exact downgradeChain_gap reg target v m₁ w hw1 (by omega) hnone
          (fun u hu1 hu2 => habove u hu1 (by omega))
    · have hw : w = v + 1 := by omega
      subst hw
      rw [hnone]

theorem backport_eq_chain {reg : Registry} {minV : Nat} {src : Package}
    {target sv : Nat} (hdet : detectVersion src = .ok sv)
    (h1 : target ≤ sv) (h2 : minV ≤ target) :
    backport reg minV src target =
      Except.map (fun mm => repackage target mm src)
        (downgradeChain reg target sv (parseBytecode src)) := by
  unfold backport
  simp only [hdet]
  rw [if_neg (by omega : ¬ sv < target), if_neg (by omega : ¬ target < minV)]
  cases hc : downgradeChain reg target sv (parseBytecode src) <;> simp [Except.map]

theorem downgradeChain_split (reg : Registry) (target mid : Nat) (h1 : target ≤ mid) :
    ∀ (v : Nat) (m : BytecodeModel), mid ≤ v →
      downgradeChain reg target v m =
        (downgradeChain reg mid v m).bind (downgradeChain reg target mid)
  | 0, m, hv => by
    have hm : mid = 0 := Nat.le_zero.mp hv
    subst hm
    rfl
  | v + 1, m, hv => by
    by_cases h : v + 1 ≤ mid
    · have hm : mid = v + 1 := by omega
      subst hm
      rw [downgradeChain_of_le reg m (Nat.le_refl (v + 1))]
      rfl
    · have htn : ¬ (v + 1 ≤ target) := by omega
      simp only [downgradeChain, if_neg h, if_neg htn]
      cases hr : reg (v + 1) with
      | none => rfl
      | some st =>
        show (match st m with
            | none => Except.error BackportError.StepFailure
            | some m₁ => downgradeChain reg target v m₁) =
          (match st m with
            | none => Except.error BackportError.StepFailure
            | some m₁ => downgradeChain reg mid v m₁).bind (downgradeChain reg target mid)
        cases hs : st m with
        | none => rfl
        | some m₁ => exact downgradeChain_split reg target mid h1 v m₁ (by omega)

theorem repackage_repackage (t t' : Nat) (m m' : BytecodeModel) (src : Package) :
    repackage t m (repackage t' m' src) = repackage t m src := by
  have h := nonBytecodeEntries_repackage t' m' src
  show serializeBytecode t m ++ nonBytecodeEntries (repackage t' m' src) =
    serializeBytecode t m ++ nonBytecodeEntries src
  rw [h]

/-! ### Claim theorems -/

/-- C1: for every source package with detected version `sv` and every requested
target strictly greater than `sv`, backport fails with `UnsupportedTarget`, and
for a named-path destination the destination target is never touched: the
contents at the destination path are unchanged and the call reports failure. -/
theorem backport_no_upgrade (s : SystemState) (src : Package) (inp out : String)
    (target sv : Nat) (hdet : detectVersion src = .ok sv) (hgt : sv < target)
    (hfile : s.files inp = some src) :
    backport s.registry s.minVersion src target = .error .UnsupportedTarget ∧
    (runBackportAt s inp out target).1.files out = s.files out ∧
    (runBackportAt s inp out target).2 = false := by
  have hb : backport s.registry s.minVersion src target = .error .UnsupportedTarget := by
    unfold backport; rw [hdet]; simp [hgt]
  refine ⟨hb, ?_, ?_⟩ <;>
    simp [runBackportAt, hfile, backportStreamToPath, _backport_for_mobile, hb, writeDest]

/-- Witness for C1: backporting the concrete version-6 package to version 7
fails with `UnsupportedTarget` and leaves the destination path untouched. -/
theorem backport_no_upgrade_witness :
    backport exState.registry exState.minVersion exPkg 7 = .error .UnsupportedTarget ∧
    (runBackportAt exState "in" "out" 7).1.files "out" = exState.files "out" ∧
    (runBackportAt exState "in" "out" 7).2 = false :=
  backport_no_upgrade exState exPkg "in" "out" 7 6 rfl (by decide) rfl

/-- C2: a failure at any stage propagates — a detection error or a downgrade
chain error makes the canonical backport return that error — and whenever the
canonical backport fails, the named-path run changes nothing: the whole system
state, in particular the destination path, is exactly as before, and failure
is reported. No destination package is produced. -/
theorem backport_atomic_on_failure (s : SystemState) (src : Package)
    (inp out : String) (target : Nat) (e : BackportError)
    (hfile : s.files inp = some src) :
    (detectVersion src = .error e →
      backport s.registry s.minVersion src target = .error e) ∧
    (∀ sv, detectVersion src = .ok sv → target ≤ sv → s.minVersion ≤ target →
      downgradeChain s.registry target sv (parseBytecode src) = .error e →
      backport s.registry s.minVersion src target = .error e) ∧
    (backport s.registry s.minVersion src target = .error e →
      (runBackportAt s inp out target).1 = s ∧
      (runBackportAt s inp out target).2 = false) := by
  refine ⟨?_, ?_, ?_⟩
  · intro h
    unfold backport
    simp only [h]
  · intro sv hdet hts hmt hchain
    rw [backport_eq_chain hdet hts hmt, hchain]
    rfl
  · intro hfail
    constructor <;>
      simp [runBackportAt, hfile, backportStreamToPath, _backport_for_mobile, hfail, writeDest]

/-- Witness for C2: requesting target 3 from the concrete state (no step 4→3
registered) fails and leaves the state unchanged. -/
theorem backport_atomic_on_failure_witness :
    (runBackportAt exState "in" "out" 3).1 = exState ∧
    (runBackportAt exState "in" "out" 3).2 = false :=
  (backport_atomic_on_failure exState exPkg "in" "out" 3 .NoDowngradePath rfl).2.2 rfl

/-- C3: on every successful backport, the entries of the source not classified
as bytecode records appear in the destination byte-identical to the source —
same names, same bytes, same order. -/
theorem backport_nonbytecode_passthrough (reg : Registry) (minV : Nat)
    (src : Package) (target : Nat) (d : Package)
    (h : backport reg minV src target = .ok d) :
    nonBytecodeEntries d = nonBytecodeEntries src := by
  obtain ⟨sv, m₁, -, -, -, -, hd⟩ := backport_ok_elim h
  rw [hd]
  exact nonBytecodeEntries_repackage target m₁ src

/-- Witness for C3: the concrete backport 6→4 succeeds and its two auxiliary
entries pass through verbatim. -/
theorem backport_nonbytecode_passthrough_witness :
    nonBytecodeEntries
      [(⟨"bytecode/version", [4]⟩ : Entry), ⟨"bytecode/records", [0, 7, 8, 1]⟩,
       ⟨"data/weight0", [9, 10]⟩, ⟨"extra/meta", [11]⟩] = nonBytecodeEntries exPkg :=
  backport_nonbytecode_passthrough exReg 2 exPkg 4 _ rfl

/-- C4: backporting a package to its own detected version succeeds (a verified
copy through the Repackager), and the produced package's bytecode re-parses to
exactly the source's bytecode model; the copy's declared version is unchanged. -/
theorem backport_roundtrip_identity (reg : Registry) (minV : Nat) (src : Package)
    (sv : Nat) (hdet : detectVersion src = .ok sv) (hmin : minV ≤ sv) :
    ∃ d, backport reg minV src sv = .ok d ∧ parseBytecode d = parseBytecode src ∧
      detectVersion d = .ok sv := by
  refine ⟨repackage sv (parseBytecode src) src, ?_,
    parseBytecode_repackage sv (parseBytecode src) src,
    detectVersion_repackage sv (parseBytecode src) src⟩
  unfold backport
  rw [hdet]
  simp [Nat.lt_irrefl, Nat.not_lt.mpr hmin, downgradeChain_of_le reg (parseBytecode src) (Nat.le_refl sv)]

/-- Witness for C4: backporting the concrete package to its own version 6
succeeds with bytecode and version preserved. -/
theorem backport_roundtrip_identity_witness :
    ∃ d, backport exReg 2 exPkg 6 = .ok d ∧ parseBytecode d = parseBytecode exPkg ∧
      detectVersion d = .ok 6 :=
  backport_roundtrip_identity exReg 2 exPkg 6 rfl (by decide)

/-- C5: the orchestrator's downgrade loop is exactly a fold of single-step
applications over the strictly descending version list `[v, v-1, …, target+1]`;
each iteration looks up `stepFor` at the current version and replaces the
model; and when `stepFor` is absent at some version in the range (all higher
steps being present and succeeding), the loop fails with `NoDowngradePath`. -/
theorem backport_descending_chain (reg : Registry) (target v : Nat) (m : BytecodeModel) :
    downgradeChain reg target v m =
      (versionsToApply target v).foldl (stepAt reg) (.ok m) ∧
    versionsToApply target v = (List.range' (target + 1) (v - target)).reverse ∧
    (∀ w, target < w → w ≤ v → reg w = none →
      (∀ u, w < u → u ≤ v → ∃ st, reg u = some st ∧ ∀ mm, (st mm).isSome = true) →
      downgradeChain reg target v m = .error .NoDowngradePath) :=
  ⟨downgradeChain_eq_foldl reg target v m, versionsToApply_eq_range target v,
   fun w hw1 hw2 hnone habove =>
     downgradeChain_gap reg target v m w hw1 hw2 hnone habove⟩

/-- Witness for C5: for the concrete registry, the orchestrator's loop from
version 6 down to target 2 visits `[6, 5, 4, 3]` in descending order and fails
with `NoDowngradePath` at the unregistered version 4. -/
theorem backport_descending_chain_witness :
    versionsToApply 2 6 = [6, 5, 4, 3] ∧
    downgradeChain exReg 2 6 [7, 8] = .error .NoDowngradePath :=
  ⟨((backport_descending_chain exReg 2 6 [7, 8]).2.1).trans (by decide),
   (backport_descending_chain exReg 2 6 [7, 8]).2.2 4 (by decide) (by decide) rfl
     (by
       intro u hu1 hu2
       interval_cases u
       · exact ⟨_, rfl, fun mm => rfl⟩
       · exact ⟨_, rfl, fun mm => rfl⟩)⟩

/-- C6: invoking the orchestrator once over the whole span equals invoking it
in two stages through any intermediate supported version `mid`: the one-call
destination package is exactly the package obtained by backporting to `mid`
and backporting that result to the target. -/
theorem backport_chain_composition (reg : Registry) (minV : Nat) (src : Package)
    (sv target mid : Nat) (hdet : detectVersion src = .ok sv) (h1 : target ≤ mid)
    (h2 : mid ≤ sv) (hmin : minV ≤ target) :
    backport reg minV src target =
      (backport reg minV src mid).bind (fun dmid => backport reg minV dmid target) := by
  rw [backport_eq_chain hdet (by omega) (by omega),
    backport_eq_chain hdet h2 (by omega),
    downgradeChain_split reg target mid h1 sv (parseBytecode src) h2]
  cases hc : downgradeChain reg mid sv (parseBytecode src) with
  | error e => rfl
  | ok m₁ =>
    show Except.map (fun mm => repackage target mm src) (downgradeChain reg target mid m₁) =
      backport reg minV (repackage mid m₁ src) target
    rw [backport_eq_chain (detectVersion_repackage mid m₁ src) h1 (by omega),
      parseBytecode_repackage]
    cases downgradeChain reg target mid m₁ with
    | error e => rfl
    | ok m₂ =>
      show Except.ok (repackage target m₂ src) =
        Except.ok (repackage target m₂ (repackage mid m₁ src))
      rw [repackage_repackage]

/-- Witness for C6: backporting the concrete package from version 6 to 4 in
one call equals backporting 6→5 and then 5→4 through the orchestrator. -/
theorem backport_chain_composition_witness :
    backport exReg 2 exPkg 4 =
      (backport exReg 2 exPkg 5).bind (fun dmid => backport exReg 2 dmid 4) :=
  backport_chain_composition exReg 2 exPkg 6 4 5 rfl (by decide) (by decide) (by decide)

theorem writeDest_registry (s : SystemState) (out : String)
    (r : Except BackportError Package) :
    (writeDest s out r).1.registry = s.registry := by
  cases r <;> rfl

theorem writeDest_snd (s : SystemState) (out : String)
    (r : Except BackportError Package) :
    (writeDest s out r).2 = succeeded r := by
  cases r <;> rfl

theorem succeeded_iff (r : Except BackportError Package) :
    (succeeded r = true ↔ ∃ d, r = .ok d) ∧
    (succeeded r = false ↔ ∃ e, r = .error e) := by
  cases r <;> simp [succeeded]

/-- C7: the registry component of the system state is never mutated — every
public named-path operation returns a state with the same registry — and the
lookup `stepFor` is total: for every version it returns either a registered
step or `none`, never failing. -/
theorem registry_immutable_total (s : SystemState) (src : Package)
    (inp out : String) (target : Nat) :
    (runBackportAt s inp out target).1.registry = s.registry ∧
    (backportStreamToPath s src out target).1.registry = s.registry ∧
    (∀ v : Nat, s.registry v = none ∨ ∃ st, s.registry v = some st) := by
  refine ⟨?_, writeDest_registry s out _, ?_⟩
  · unfold runBackportAt
    cases s.files inp with
    | none => rfl
    | some src₀ => exact writeDest_registry s out _
  · intro v
    cases h : s.registry v with
    | none => exact Or.inl rfl
    | some st => exact Or.inr ⟨st, rfl⟩

/-- C8: the Version Detector returns the version declared in the package
exactly when a well-formed version record is present; it fails with
`UnreadableArchive` exactly when the container cannot be opened (missing file)
or the version record is absent or malformed, and `UnreadableArchive` is its
only error. -/
theorem version_detector_contract (p : Package) (files : String → Option Package)
    (n : String) :
    (∀ v, detectVersion p = .ok v ↔
      ∃ e, findEntry p versionEntryName = some e ∧ e.bytes = [v]) ∧
    (findEntry p versionEntryName = none →
      detectVersion p = .error .UnreadableArchive) ∧
    (∀ e, findEntry p versionEntryName = some e → (∀ v, e.bytes ≠ [v]) →
      detectVersion p = .error .UnreadableArchive) ∧
    (∀ err, detectVersion p = .error err → err = .UnreadableArchive) ∧
    (files n = none → detectVersionFromFile files n = .error .UnreadableArchive) ∧
    (∀ q, files n = some q → detectVersionFromFile files n = detectVersion q) := by
  refine ⟨?_, ?_, ?_, ?_, ?_, ?_⟩
  · intro v
    constructor
    · intro h
      unfold detectVersion at h
      cases hf : findEntry p versionEntryName with
      | none => rw [hf] at h; cases h
      | some e =>
        simp only [hf] at h
        refine ⟨e, rfl, ?_⟩
        cases hb : e.bytes with
        | nil => rw [hb] at h; cases h
        | cons b rest =>
          cases rest with
          | nil => rw [hb] at h; cases h; rfl
          | cons b₂ rest₂ => rw [hb] at h; cases h
    · rintro ⟨e, hf, hb⟩
      unfold detectVersion
      simp only [hf, hb]
  · intro h
    unfold detectVersion
    simp only [h]
  · intro e hf hmal
    unfold detectVersion
    simp only [hf]
  · intro err h
    unfold detectVersion at h
    cases hf : findEntry p versionEntryName with
    | none => rw [hf] at h; cases h; rfl
    | some e =>
      simp only [hf] at h
      cases hb : e.bytes with
      | nil => rw [hb] at h; cases h; rfl
      | cons b rest =>
        cases rest with
        | nil => rw [hb] at h; cases h
        | cons b₂ rest₂ => rw [hb] at h; cases h; rfl
  · intro h
    unfold detectVersionFromFile
    simp only [h]
  · intro q hq
    unfold detectVersionFromFile
    simp only [hq]

/-- Witness for C8: the detector reads version 6 from the concrete package,
and an unopenable (missing) source yields `UnreadableArchive`. -/
theorem version_detector_contract_witness :
    detectVersion exPkg = .ok 6 ∧
    detectVersionFromFile exState.files "missing" = .error .UnreadableArchive :=
  ⟨((version_detector_contract exPkg exState.files "missing").1 6).mpr
      ⟨⟨"bytecode/version", [6]⟩, rfl, rfl⟩,
   (version_detector_contract exPkg exState.files "missing").2.2.2.2.1 rfl⟩

/-- C9: each stream/path entry point is observationally equivalent to wrapping
its source/destination and calling the canonical `_backport_for_mobile`: the
stream-stream and stream-path overloads are literal forwards, the path-based
overloads equal the canonical call on the opened package (or fail without
touching anything when the source cannot be opened), and the canonical form is
the orchestrator itself — the overloads contain no independent logic. -/
theorem overloads_forward_to_canonical (s : SystemState) (src : Package)
    (inp out : String) (target : Nat) :
    backportStreamToStream s.registry s.minVersion src target =
      _backport_for_mobile s.registry s.minVersion src target ∧
    backportStreamToPath s src out target =
      writeDest s out (_backport_for_mobile s.registry s.minVersion src target) ∧
    (s.files inp = some src →
      backportPathToStream s inp target =
        _backport_for_mobile s.registry s.minVersion src target ∧
      runBackportAt s inp out target = backportStreamToPath s src out target) ∧
    (s.files inp = none →
      backportPathToStream s inp target = .error .UnreadableArchive ∧
      runBackportAt s inp out target = (s, false)) ∧
    _backport_for_mobile s.registry s.minVersion src target =
      backport s.registry s.minVersion src target := by
  refine ⟨rfl, rfl, fun h => ⟨?_, ?_⟩, fun h => ⟨?_, ?_⟩, rfl⟩ <;>
    simp [backportPathToStream, runBackportAt, h]

/-- Witness for C9: with the concrete state, opening `"in"` and running the
canonical entry point agrees with the path-based overloads. -/
theorem overloads_forward_to_canonical_witness :
    backportPathToStream exState "in" 4 =
      _backport_for_mobile exState.registry exState.minVersion exPkg 4 ∧
    runBackportAt exState "in" "out" 4 = backportStreamToPath exState exPkg "out" 4 :=
  (overloads_forward_to_canonical exState exPkg "in" "out" 4).2.2.1 rfl

/-- C10: every public entry point yields a boolean outcome — the success flag
is `true` exactly when the canonical backport produced a destination package
and `false` exactly when it failed — so failure is reported through the
returned boolean, not through any other channel. -/
theorem entry_points_return_bool (s : SystemState) (reg : Registry) (minV : Nat)
    (src : Package) (inp out : String) (target : Nat) :
    (succeeded (backportStreamToStream reg minV src target) = true ∨
      succeeded (backportStreamToStream reg minV src target) = false) ∧
    (succeeded (backportStreamToStream reg minV src target) = true ↔
      ∃ d, _backport_for_mobile reg minV src target = .ok d) ∧
    (succeeded (backportStreamToStream reg minV src target) = false ↔
      ∃ e, _backport_for_mobile reg minV src target = .error e) ∧
    ((backportStreamToPath s src out target).2 = true ↔
      ∃ d, _backport_for_mobile s.registry s.minVersion src target = .ok d) ∧
    ((runBackportAt s inp out target).2 = true ↔
      ∃ src₀ d, s.files inp = some src₀ ∧
        _backport_for_mobile s.registry s.minVersion src₀ target = .ok d) ∧
    (succeeded (backportPathToStream s inp target) = true ↔
      ∃ src₀ d, s.files inp = some src₀ ∧
        _backport_for_mobile s.registry s.minVersion src₀ target = .ok d) := by
  refine ⟨Bool.eq_false_or_eq_true _, (succeeded_iff _).1, (succeeded_iff _).2,
    ?_, ?_, ?_⟩
  · rw [show (backportStreamToPath s src out target).2 =
        succeeded (_backport_for_mobile s.registry s.minVersion src target) from
      writeDest_snd s out _]
    exact (succeeded_iff _).1
  · unfold runBackportAt
    cases hf : s.files inp with
    | none => simp
    | some src₀ =>
      rw [show (backportStreamToPath s src₀ out target).2 =
          succeeded (_backport_for_mobile s.registry s.minVersion src₀ target) from
        writeDest_snd s out _]
      rw [(succeeded_iff _).1]
      constructor
      · rintro ⟨d, hd⟩
        exact ⟨src₀, d, rfl, hd⟩
      · rintro ⟨src₁, d, hsome, hd⟩
        cases hsome
        exact ⟨d, hd⟩
  · unfold backportPathToStream
    cases hf : s.files inp with
    | none => simp [succeeded]
    | some src₀ =>
      rw [(succeeded_iff _).1]
      constructor
      · rintro ⟨d, hd⟩
        exact ⟨src₀, d, rfl, hd⟩
      · rintro ⟨src₁, d, hsome, hd⟩
        cases hsome
        exact ⟨d, hd⟩

/-- Witness for C10: the concrete path-to-path run to target 4 reports
success, with the canonical backport's output as the produced package. -/
theorem entry_points_return_bool_witness :
    (runBackportAt exState "in" "out" 4).2 = true :=
  ((entry_points_return_bool exState exReg 2 exPkg "in" "out" 4).2.2.2.2.1).mpr
    ⟨exPkg, repackage 4 [0, 7, 8, 1] exPkg, rfl, rfl⟩

end Backport
